import Mathlib

/-!
Shallow embedding of the HAL-60 sampler engine (src/app.js).

Web Audio clock values (`audioCtx.currentTime`, scheduled note times) are
modelled as exact rationals.  JavaScript `Math.round` and the `%` operator
are modelled by `jsRound` and `jsRem`.  Audio-node side effects (voice
starts, mute-group fade-outs, metronome ticks, drum hits) are modelled as a
list of `AudioAction` values carrying the scheduling parameters the code
passes to the Web Audio API.  DOM-only effects (CSS classes, text content,
event-marker rendering) are not part of the engine state and are omitted.
-/

namespace HAL60

/-- JavaScript `Math.round`: round half toward positive infinity. -/
def jsRound (q : ℚ) : ℤ := ⌊q + 1/2⌋

/-- JavaScript `%` on integers (truncated remainder, takes the sign of the
dividend) for a positive modulus `b`. -/
def jsRem (a b : ℤ) : ℤ := if 0 ≤ a then a % b else -((-a) % b)

-- Constants (app.js lines 18-30)
def NUM_PADS : ℕ := 16
def BARS : ℕ := 4
def BEATS_PER_BAR : ℕ := 4
def THIRTYSECONDS_PER_BEAT : ℕ := 8
def SIXTEENTHS_PER_BEAT : ℕ := 4
def STEPS_PER_SIXTEENTH : ℕ := 2
def TOTAL_STEPS : ℕ := BARS * BEATS_PER_BAR * THIRTYSECONDS_PER_BEAT
def DRUM_TRACKS : ℕ := 4
def SEQ_STEPS : ℕ := 16

-- Drum bank presets (app.js lines 58-87)

structure KickParams where
  freq : ℚ
  endFreq : ℚ
  decay : ℚ
  tone : ℚ
deriving DecidableEq

structure SnareParams where
  toneFreq : ℚ
  noiseDecay : ℚ
  filterFreq : ℚ
  tone : ℚ
deriving DecidableEq

structure NoiseVoiceParams where
  filterFreq : ℚ
  decay : ℚ
  q : ℚ
deriving DecidableEq

structure DrumBank where
  name : String
  kick : KickParams
  snare : SnareParams
  hihat : NoiseVoiceParams
  cymbal : NoiseVoiceParams
deriving DecidableEq

def DRUM_BANKS : List DrumBank :=
  [ { name := "A"
    , kick := { freq := 150, endFreq := 40, decay := 0.3, tone := 0.8 }
    , snare := { toneFreq := 180, noiseDecay := 0.15, filterFreq := 3000, tone := 0.5 }
    , hihat := { filterFreq := 8000, decay := 0.05, q := 1 }
    , cymbal := { filterFreq := 5000, decay := 0.4, q := 1 } }
  , { name := "B"
    , kick := { freq := 180, endFreq := 35, decay := 0.4, tone := 0.9 }
    , snare := { toneFreq := 200, noiseDecay := 0.2, filterFreq := 4000, tone := 0.6 }
    , hihat := { filterFreq := 9000, decay := 0.04, q := 1.5 }
    , cymbal := { filterFreq := 6000, decay := 0.5, q := 1.5 } }
  , { name := "C"
    , kick := { freq := 120, endFreq := 50, decay := 0.25, tone := 0.7 }
    , snare := { toneFreq := 160, noiseDecay := 0.12, filterFreq := 2500, tone := 0.4 }
    , hihat := { filterFreq := 10000, decay := 0.03, q := 2 }
    , cymbal := { filterFreq := 7000, decay := 0.35, q := 0.8 } }
  , { name := "D"
    , kick := { freq := 200, endFreq := 30, decay := 0.5, tone := 1.0 }
    , snare := { toneFreq := 220, noiseDecay := 0.25, filterFreq := 3500, tone := 0.7 }
    , hihat := { filterFreq := 7000, decay := 0.06, q := 0.8 }
    , cymbal := { filterFreq := 4500, decay := 0.6, q := 1.2 } } ]

/-- One entry of the `regions` array: `{ id, start, end }` time offsets into
the decoded sample buffer (the `wsRegion` handle is UI-only and omitted). -/
structure Region where
  start : ℚ
  endTime : ℚ
deriving DecidableEq

/-- An audio-node side effect scheduled on the Web Audio timeline.
`startVoice` records the parameters of the `AudioBufferSourceNode` start
(`source.start(t, offset, duration)` plus the pitch in semitones whose
playback rate is `2^(semitones/12)`); `fadeStop` records the mute-group
de-click ramp (`linearRampToValueAtTime(0, t+0.005)`; `stop(t+0.006)`);
`metronomeTick` records the oscillator start time and frequency;
`drumHit` records a fire-and-forget drum-synth voice. -/
inductive AudioAction where
  | startVoice (sliceIndex : ℕ) (startAt offset duration : ℚ) (semitones : ℚ)
  | fadeStop (rampStart rampEnd stopAt : ℚ)
  | metronomeTick (startAt : ℚ) (freq : ℕ)
  | drumHit (track : ℕ) (startAt : ℚ)
deriving DecidableEq

/-- The mutable engine state of app.js (lines 150-216), restricted to the
scheduling / synthesis / recording core.  `audioTime` is the ambient
`audioCtx.currentTime` input; `audioCtxStarted` is whether `audioCtx` has
been created; `currentSource` / `currentGain` model whether the mute-group
bookkeeping holds a live source/gain node; `progressWidth` is the progress
bar fill percentage (the one piece of display state the spec's cancellation
contract mentions). -/
structure EngineState where
  audioCtxStarted : Bool
  audioTime : ℚ
  decodedBufferLoaded : Bool
  regions : List Region
  currentSource : Bool
  currentGain : Bool
  activePadIndex : ℤ
  semitones : ℚ
  bumpAmount : ℚ
  bpm : ℚ
  isPlaying : Bool
  isRecording : Bool
  quantizeRes : ℕ
  swingPercent : ℚ
  metronomeEnabled : Bool
  isCountingIn : Bool
  countInStep : ℕ
  countInNextTime : ℚ
  countInTimerID : Option ℕ
  shiftHeld : Bool
  mousePressedPads : List ℕ
  keyPressedPads : List ℕ
  sequence : List (Option ℕ)
  nextNoteTime : ℚ
  currentStep : ℕ
  timerID : Option ℕ
  loopStartTime : ℚ
  animFrameID : Option ℕ
  seqMode : Bool
  drumPattern : List (List Bool)
  drumTrackVol : List ℚ
  drumTrackPitch : List ℚ
  currentDrumBank : ℕ
  progressWidth : ℚ
deriving DecidableEq

/-- The initial values of the globals in app.js lines 150-216. -/
def initialState : EngineState where
  audioCtxStarted := false
  audioTime := 0
  decodedBufferLoaded := false
  regions := []
  currentSource := false
  currentGain := false
  activePadIndex := -1
  semitones := 0
  bumpAmount := 24
  bpm := 70
  isPlaying := false
  isRecording := false
  quantizeRes := 32
  swingPercent := 50
  metronomeEnabled := false
  isCountingIn := false
  countInStep := 0
  countInNextTime := 0
  countInTimerID := none
  shiftHeld := false
  mousePressedPads := []
  keyPressedPads := []
  sequence := List.replicate TOTAL_STEPS none
  nextNoteTime := 0
  currentStep := 0
  timerID := none
  loopStartTime := 0
  animFrameID := none
  seqMode := false
  drumPattern := List.replicate DRUM_TRACKS (List.replicate SEQ_STEPS false)
  drumTrackVol := [80, 80, 80, 80]
  drumTrackPitch := [0, 0, 0, 0]
  currentDrumBank := 0
  progressWidth := 0

/-- `ensureAudioContext()` (app.js 502-537): lazily creates the audio
context and master chain; a no-op once created. -/
def ensureAudioContext (s : EngineState) : EngineState :=
  if s.audioCtxStarted then s else { s with audioCtxStarted := true }

/-- `stopCurrent(atTime)` (app.js 591-610): if a mute-group voice is active
(and the audio context exists), schedule a 5 ms linear fade and stop the
source 6 ms after `t`; always clear the voice bookkeeping.  `atTime = none`
models the argument being omitted (`t = audioCtx.currentTime`). -/
def stopCurrent (atTime : Option ℚ) (s : EngineState) :
    EngineState × List AudioAction :=
  let acts :=
    if s.currentSource && s.currentGain && s.audioCtxStarted then
      let t := atTime.getD s.audioTime
      [AudioAction.fadeStop t (t + 5/1000) (t + 6/1000)]
    else []
  ({ s with currentSource := false, currentGain := false, activePadIndex := -1 }, acts)

/-- `playSlice(index, atTime)` (app.js 546-585): guard, mute-group stop of
the previous voice, then start a new buffer source reading the slice region.
The updated bookkeeping (`currentSource`, `currentGain`, `activePadIndex`)
is recorded in the state; the node creation is the `startVoice` action. -/
def playSlice (index : ℤ) (atTime : Option ℚ) (s : EngineState) :
    EngineState × List AudioAction :=
  if ¬ s.decodedBufferLoaded ∨ index < 0 ∨ (NUM_PADS : ℤ) ≤ index then (s, [])
  else
    let s1 := ensureAudioContext s
    match s1.regions[index.toNat]? with
    | none => (s1, [])
    | some slice =>
      let t := atTime.getD s1.audioTime
      let stopped := stopCurrent (some t) s1
      let s3 := { stopped.1 with currentSource := true, currentGain := true,
                                 activePadIndex := index }
      (s3, stopped.2 ++
        [AudioAction.startVoice index.toNat t slice.start
          (slice.endTime - slice.start) s3.semitones])

/-- `playMetronomeTick(time, isDownbeat)` (app.js 619-636): a sine blip at
2400 Hz on the downbeat, 1800 Hz otherwise, routed around the compressor. -/
def playMetronomeTick (time : ℚ) (isDownbeat : Bool) (s : EngineState) :
    EngineState × List AudioAction :=
  (ensureAudioContext s,
   [AudioAction.metronomeTick time (if isDownbeat then 2400 else 1800)])

/-- `playDrumSound(trackIndex, time)` (app.js 725-736): looks up the active
bank and dispatches one fire-and-forget synth voice.  A missing bank entry
(which in JS would crash on reading `bank.kick`) produces no action; the
bank-safety theorem shows that branch is unreachable for any bank index
produced by `setDrumBank`. -/
def playDrumSound (trackIndex : ℕ) (time : ℚ) (s : EngineState) :
    EngineState × List AudioAction :=
  let s1 := ensureAudioContext s
  match DRUM_BANKS[s.currentDrumBank]? with
  | some _bank => (s1, [AudioAction.drumHit trackIndex time])
  | none => (s1, [])

/-- The index computation of `recordEvent` (app.js 1204-1223): quantize the
elapsed loop time to the 1/32 grid (`quantizeRes = 32`) or the 1/16 grid
(`quantizeRes = 16`), JS-mod by `TOTAL_STEPS`, then clamp into range. -/
def recordStep (bpm : ℚ) (quantizeRes : ℕ) (elapsed : ℚ) : ℕ :=
  let secondsPerBeat := 60 / bpm
  let thirtySecondDur := secondsPerBeat / (THIRTYSECONDS_PER_BEAT : ℚ)
  let rawStep := elapsed / thirtySecondDur
  let step : ℤ :=
    if quantizeRes = 16 then jsRem (jsRound (rawStep / 2) * 2) (TOTAL_STEPS : ℤ)
    else jsRem (jsRound rawStep) (TOTAL_STEPS : ℤ)
  let clamped : ℤ :=
    if step < 0 then 0
    else if (TOTAL_STEPS : ℤ) ≤ step then (TOTAL_STEPS : ℤ) - 1
    else step
  clamped.toNat

/-- `recordEvent(sliceId)` (app.js 1204-1230): guard on the audio context,
compute the quantized step from `audioCtx.currentTime - loopStartTime`, and
write the slice id into the sequence (last write wins). -/
def recordEvent (sliceId : ℕ) (s : EngineState) : EngineState :=
  if ¬ s.audioCtxStarted then s
  else
    let step := recordStep s.bpm s.quantizeRes (s.audioTime - s.loopStartTime)
    { s with sequence := s.sequence.set step (some sliceId) }

/-- `triggerPad(index)` (app.js 754-764): guard, play the slice now, and
capture the event when recording during playback. -/
def triggerPad (index : ℤ) (s : EngineState) : EngineState × List AudioAction :=
  if ¬ s.decodedBufferLoaded ∨ index < 0 ∨ (NUM_PADS : ℤ) ≤ index then (s, [])
  else
    let played := playSlice index none s
    let s2 :=
      if played.1.isRecording && played.1.isPlaying then
        recordEvent index.toNat played.1
      else played.1
    (s2, played.2)

/-- `setBpm(val)` (app.js 808-814): `Math.max(60, Math.min(90,
Math.round(Number(val) || 70)))`; a zero/NaN input falls back to 70. -/
def setBpm (val : ℚ) (s : EngineState) : EngineState :=
  { s with bpm := max 60 (min 90 ((jsRound (if val = 0 then 70 else val) : ℤ) : ℚ)) }

/-- `setQuantizeRes(res)` (app.js 827-832). -/
def setQuantizeRes (res : ℕ) (s : EngineState) : EngineState :=
  { s with quantizeRes := res }

def SWING_VALUES : List ℚ := [50, 60, 70]

/-- `setSwingPosition(posIndex)` (app.js 845-849): clamp the position to
`[0, 2]` and select from `SWING_VALUES`. -/
def setSwingPosition (posIndex : ℤ) (s : EngineState) : EngineState :=
  { s with swingPercent := SWING_VALUES.getD (max 0 (min 2 posIndex)).toNat 50 }

/-- `isNoteRepeatActive()` (app.js 884-887). -/
def isNoteRepeatActive (s : EngineState) : Bool :=
  if s.seqMode then false else s.shiftHeld

/-- `getPressedPads()` (app.js 889-893): the union of the mouse-held and
key-held sets.  JS `Set` iteration follows insertion order, so the union
lists the mouse-held pads first, then the key-held pads not already
present. -/
def getPressedPads (s : EngineState) : List ℕ :=
  s.mousePressedPads ++ s.keyPressedPads.filter (fun p => p ∉ s.mousePressedPads)

/-- The window `blur` handler (app.js 896-900): clears both held-pad sets
and the shift flag. -/
def blurHandler (s : EngineState) : EngineState :=
  { s with mousePressedPads := [], keyPressedPads := [], shiftHeld := false }

/-- `setDrumBank(index)` (app.js 918-921): double JS-mod wraps any integer
into `[0, DRUM_BANKS.length)`. -/
def setDrumBank (index : ℤ) (s : EngineState) : EngineState :=
  { s with currentDrumBank :=
      (jsRem (jsRem index (DRUM_BANKS.length : ℤ) + (DRUM_BANKS.length : ℤ))
        (DRUM_BANKS.length : ℤ)).toNat }

-- Scheduler constants (app.js 196-197)
def lookahead : ℚ := 25
def scheduleAheadTime : ℚ := 1/10

/-- `nextNote()` (app.js 1026-1057): advance one 1/32 step.  Inside a 16th
pair the interval is straight; when crossing a 16th boundary the swing delay
is subtracted when leaving an odd-indexed 16th and added when entering one.
Past the final step the index wraps to 0 and `loopStartTime` is re-pinned to
`nextNoteTime`. -/
def nextNote (s : EngineState) : EngineState :=
  let secondsPerBeat := 60 / s.bpm
  let thirtySecondDur := secondsPerBeat / (THIRTYSECONDS_PER_BEAT : ℚ)
  let sixteenthDur := secondsPerBeat / (SIXTEENTHS_PER_BEAT : ℚ)
  let swingDelay := (s.swingPercent / 100 - 1/2) * 2 * sixteenthDur
  let sub := s.currentStep % STEPS_PER_SIXTEENTH
  let newTime :=
    if sub = 0 then s.nextNoteTime + thirtySecondDur
    else
      let currentSixteenth := s.currentStep / STEPS_PER_SIXTEENTH
      let nextSixteenth := currentSixteenth + 1
      let interval := thirtySecondDur
        + (if currentSixteenth % 2 = 1 then -swingDelay else 0)
        + (if nextSixteenth % 2 = 1 then swingDelay else 0)
      s.nextNoteTime + interval
  let newStep := s.currentStep + 1
  if TOTAL_STEPS ≤ newStep then
    { s with currentStep := 0, nextNoteTime := newTime, loopStartTime := newTime }
  else
    { s with currentStep := newStep, nextNoteTime := newTime }

/-- The note-repeat loop body of `scheduleNote` (app.js 1105-1118): for each
held pad in set-iteration order, retrigger it through the mute group and,
while recording, write it into the sequence at the raw dispatched step
(`step % TOTAL_STEPS`; the JS guard `s >= 0 && s < TOTAL_STEPS` is kept). -/
def noteRepeatHits (step : ℕ) (time : ℚ) :
    List ℕ → EngineState → EngineState × List AudioAction
  | [], s => (s, [])
  | padIdx :: rest, s =>
    let played := playSlice (padIdx : ℤ) (some time) s
    let s2 :=
      if played.1.isRecording then
        let w := step % TOTAL_STEPS
        if w < TOTAL_STEPS then
          { played.1 with sequence := played.1.sequence.set w (some padIdx) }
        else played.1
      else played.1
    let next := noteRepeatHits step time rest s2
    (next.1, played.2 ++ next.2)

/-- The drum-pattern loop of `scheduleNote` (app.js 1080-1084): fire every
track whose pattern row is set at this 16th of the bar. -/
def drumPatternHits (pattern : List (List Bool)) (sixteenthInBar : ℕ) (time : ℚ) :
    List ℕ → EngineState → EngineState × List AudioAction
  | [], s => (s, [])
  | tr :: rest, s =>
    if (pattern.getD tr []).getD sixteenthInBar false then
      let hit := playDrumSound tr time s
      let next := drumPatternHits pattern sixteenthInBar time rest hit.1
      (next.1, hit.2 ++ next.2)
    else drumPatternHits pattern sixteenthInBar time rest s

/-- The metronome block of `scheduleNote` (app.js 1065-1075): on every
quarter-note beat (every 8 thirty-seconds), if the metronome is enabled,
tick with the downbeat accent on bar boundaries. -/
def metronomeStage (step : ℕ) (time : ℚ) (s : EngineState) :
    EngineState × List AudioAction :=
  if step % THIRTYSECONDS_PER_BEAT = 0 && s.metronomeEnabled then
    playMetronomeTick time (step % (THIRTYSECONDS_PER_BEAT * BEATS_PER_BAR) == 0) s
  else (s, [])

/-- The drum-pattern block of `scheduleNote` (app.js 1078-1088): trigger
TR steps at 16th-note boundaries of the bar. -/
def drumStage (step : ℕ) (time : ℚ) (s : EngineState) :
    EngineState × List AudioAction :=
  let barStep := step % (THIRTYSECONDS_PER_BEAT * BEATS_PER_BAR)
  if barStep % STEPS_PER_SIXTEENTH = 0 then
    drumPatternHits s.drumPattern (barStep / STEPS_PER_SIXTEENTH) time
      (List.range DRUM_TRACKS) s
  else (s, [])

/-- The sequenced-slice block of `scheduleNote` (app.js 1091-1098): play
the recorded slice at this step if one exists. -/
def seqPlayStage (step : ℕ) (time : ℚ) (s : EngineState) :
    EngineState × List AudioAction :=
  match s.sequence.getD step none with
  | some sliceId => playSlice (sliceId : ℤ) (some time) s
  | none => (s, [])

/-- The note-repeat block of `scheduleNote` (app.js 1100-1124). -/
def noteRepeatStage (step : ℕ) (time : ℚ) (s : EngineState) :
    EngineState × List AudioAction :=
  if isNoteRepeatActive s then
    let pressed := getPressedPads s
    if 0 < pressed.length then noteRepeatHits step time pressed s
    else (s, [])
  else (s, [])

/-- `scheduleNote(step, time)` (app.js 1060-1125): the four blocks in
source order — metronome tick, drum-pattern hits, the sequenced slice,
then note-repeat retriggers (the only block that writes the sequence).
The scheduler only ever calls this with `step < TOTAL_STEPS`. -/
def scheduleNote (step : ℕ) (time : ℚ) (s : EngineState) :
    EngineState × List AudioAction :=
  let metro := metronomeStage step time s
  let drums := drumStage step time metro.1
  let seqPlay := seqPlayStage step time drums.1
  let repeats := noteRepeatStage step time seqPlay.1
  (repeats.1, metro.2 ++ drums.2 ++ seqPlay.2 ++ repeats.2)

/-- `stopCountIn()` (app.js 1004-1012): reset the count-in sub-state and
cancel its timer (the overlay hide is DOM-only). -/
def stopCountIn (s : EngineState) : EngineState :=
  { s with isCountingIn := false, countInStep := 0, countInTimerID := none }

/-- `stopPlayback()` (app.js 1153-1172): clear the transport flags, cancel
any active count-in, cancel the pending main-scheduler timer, force-stop
the active mute-group voice, stop the visual loop and reset the progress
display. -/
def stopPlayback (s : EngineState) : EngineState × List AudioAction :=
  let s1 := stopCountIn { s with isPlaying := false, isRecording := false }
  let s2 := { s1 with timerID := none }
  let stopped := stopCurrent none s2
  ({ stopped.1 with animFrameID := none, progressWidth := 0 }, stopped.2)

/-- `clearSequence()` (app.js 1197-1200): `sequence.fill(null)`; the
marker re-render is DOM-only. -/
def clearSequence (s : EngineState) : EngineState :=
  { s with sequence := List.replicate TOTAL_STEPS none }

/-- The state assignments of the count-in → recording handoff inside
`countInScheduler` (app.js 952-980): at this instant the code also swaps
the count-in timer for the main scheduler (`scheduler()` is invoked from
exactly this state) and starts the visual loop. -/
def countInHandoff (s : EngineState) : EngineState :=
  { s with isCountingIn := false, isPlaying := true, isRecording := true,
           currentStep := 0, nextNoteTime := s.countInNextTime,
           loopStartTime := s.countInNextTime, countInTimerID := none }

/-- One invocation of `countInScheduler()` (app.js 950-1002): drain every
count-in beat that falls inside the look-ahead horizon; on reaching beat 4,
perform the handoff; otherwise re-arm the count-in timer.  The `fuel`
argument bounds the `while` loop; 5 iterations always suffice because
`countInStep` never exceeds 4 from `startCountIn`. -/
def countInSchedulerGo : ℕ → EngineState → EngineState × List AudioAction
  | 0, s => (s, [])
  | fuel + 1, s =>
    if s.countInNextTime < s.audioTime + scheduleAheadTime then
      if 4 ≤ s.countInStep then (countInHandoff s, [])
      else
        let tick := playMetronomeTick s.countInNextTime (s.countInStep == 0) s
        let secondsPerBeat := 60 / tick.1.bpm
        let s2 := { tick.1 with countInNextTime := tick.1.countInNextTime + secondsPerBeat,
                                countInStep := tick.1.countInStep + 1 }
        let rest := countInSchedulerGo fuel s2
        (rest.1, tick.2 ++ rest.2)
    else
      ({ s with countInTimerID := some 0 }, [])

/-- `startCountIn()` (app.js 933-948): create the audio context, arm the
count-in state at the current audio time, reset the progress bar, and run
the first `countInScheduler()` invocation synchronously. -/
def startCountIn (s : EngineState) : EngineState × List AudioAction :=
  let s0 := ensureAudioContext s
  let s1 := { s0 with isCountingIn := true, countInStep := 0,
                      countInNextTime := s0.audioTime, progressWidth := 0 }
  countInSchedulerGo 5 s1

/-- The timer-driven continuation of the count-in: each element of `wakes`
is the value of `audioCtx.currentTime` when the re-armed count-in timer
fires; the loop stops once the handoff has cleared `isCountingIn`. -/
def countInRun : List ℚ → EngineState × List AudioAction → EngineState × List AudioAction
  | [], r => r
  | now :: rest, (s, acts) =>
    if s.isCountingIn then
      let r := countInSchedulerGo 5 { s with audioTime := now }
      countInRun rest (r.1, acts ++ r.2)
    else (s, acts)

/-- The sequence invariant of spec §3: 128 slots, each empty or holding a
valid slice index. -/
def SeqOK (seq : List (Option ℕ)) : Prop :=
  seq.length = TOTAL_STEPS ∧
  ∀ i v, seq.getD i none = some v → v < NUM_PADS

/-- Proof-side abbreviation: the metronome ticks scheduled by the first
`k` count-in beats from time `t0` at `spb` seconds per beat (beat 0 is
the accented 2400 Hz downbeat). -/
def countInTickActs (t0 spb : ℚ) (k : ℕ) : List AudioAction :=
  (List.range k).map (fun j =>
    AudioAction.metronomeTick (t0 + j * spb) (if j = 0 then 2400 else 1800))

/-- Proof-side invariant of an in-progress count-in started at `t0` with
BPM `bpm0`: `k` beats already scheduled, the next beat due at
`t0 + k·spb`. -/
def CIInv (t0 spb bpm0 : ℚ) (k : ℕ) (s : EngineState) : Prop :=
  s.isCountingIn = true ∧ s.countInStep = k ∧ k ≤ 4 ∧
  s.countInNextTime = t0 + k * spb ∧ s.bpm = bpm0

/-- Proof-side description of the state right after the count-in handoff
of a count-in started at `t0`. -/
def CIFinal (t0 spb : ℚ) (s : EngineState) : Prop :=
  s.isCountingIn = false ∧ s.isPlaying = true ∧ s.isRecording = true ∧
  s.currentStep = 0 ∧ s.nextNoteTime = t0 + 4 * spb ∧
  s.loopStartTime = t0 + 4 * spb ∧ s.countInTimerID = none

/-- Proof-side abbreviation: the interval `nextNote` adds when advancing
from `step` (straight 32nd inside a 16th pair; swing-adjusted when crossing
a 16th boundary). -/
def stepInterval (bpm swing : ℚ) (step : ℕ) : ℚ :=
  let t32 := 60 / bpm / 8
  let sd := (swing / 100 - 1/2) * 2 * (60 / bpm / 4)
  if step % 2 = 0 then t32
  else t32 + (if (step / 2) % 2 = 1 then -sd else 0)
           + (if (step / 2 + 1) % 2 = 1 then sd else 0)

/-- Proof-side abbreviation: the swing displacement of step `n` relative to
the straight 32nd grid (nonzero exactly inside odd-indexed 16ths). -/
def swingOff (bpm swing : ℚ) (n : ℕ) : ℚ :=
  if (n / 2) % 2 = 1 then (swing / 100 - 1/2) * 2 * (60 / bpm / 4) else 0

/-- Proof-side relation: `s'` agrees with `s` on the fields the recording
path observes (the sequence itself, the recording flag, and the note-repeat
inputs). -/
def ObsEq (s s' : EngineState) : Prop :=
  s'.sequence = s.sequence ∧ s'.isRecording = s.isRecording ∧
  s'.seqMode = s.seqMode ∧ s'.shiftHeld = s.shiftHeld ∧
  s'.mousePressedPads = s.mousePressedPads ∧
  s'.keyPressedPads = s.keyPressedPads

-- ============================================================
-- Helper lemmas
-- ============================================================

theorem ensureAudioContext_eq (s : EngineState) :
    ensureAudioContext s = { s with audioCtxStarted := true } := by
  unfold ensureAudioContext
  split
  next h => cases s; simp_all
  next h => rfl

theorem totalSteps_eq : TOTAL_STEPS = 128 := rfl

theorem SeqOK_set (seq : List (Option ℕ)) (i v : ℕ) (hseq : SeqOK seq)
    (hv : v < NUM_PADS) : SeqOK (seq.set i (some v)) := by
  obtain ⟨hlen, hval⟩ := hseq
  refine ⟨by simpa using hlen, fun j w hw => ?_⟩
  rw [List.getD_eq_getElem?_getD, List.getElem?_set] at hw
  split at hw
  · split at hw
    · simp at hw; omega
    · simp at hw
  · exact hval j w (by rwa [List.getD_eq_getElem?_getD])

-- ============================================================
-- Claim theorems
-- ============================================================

/-- Claim C6: for an out-of-range pad index or when no sample buffer is
loaded, `triggerPad` and `playSlice` return without modifying any engine
state and without scheduling any audio action (silent no-op). -/
theorem triggerPad_playSlice_invalid_noop (s : EngineState) (index : ℤ)
    (t : Option ℚ)
    (h : s.decodedBufferLoaded = false ∨ index < 0 ∨ (NUM_PADS : ℤ) ≤ index) :
    triggerPad index s = (s, []) ∧ playSlice index t s = (s, []) := by
  have hcond : ¬ (s.decodedBufferLoaded = true) ∨ index < 0 ∨ (NUM_PADS : ℤ) ≤ index := by
    rcases h with h | h
    · exact Or.inl (by simp [h])
    · exact Or.inr h
  constructor
  · unfold triggerPad
    rw [if_pos hcond]
  · unfold playSlice
    rw [if_pos hcond]

/-- Witness for C6: index 20 (and an unloaded buffer) is a no-op. -/
theorem triggerPad_playSlice_invalid_noop_witness :
    triggerPad 20 initialState = (initialState, []) ∧
    playSlice 20 none initialState = (initialState, []) :=
  triggerPad_playSlice_invalid_noop initialState 20 none
    (Or.inr (Or.inr (by norm_num [NUM_PADS])))

/-- Claim C8: `clearSequence` empties all 128 slots and leaves the drum
pattern and every transport field (bpm, swing, quantize, play/record/
count-in flags, step index, scheduled times) unchanged. -/
theorem clearSequence_clears_and_frame (s : EngineState) :
    (clearSequence s).sequence.length = 128 ∧
    (∀ i, (clearSequence s).sequence.getD i none = none) ∧
    (clearSequence s).drumPattern = s.drumPattern ∧
    (clearSequence s).bpm = s.bpm ∧
    (clearSequence s).swingPercent = s.swingPercent ∧
    (clearSequence s).quantizeRes = s.quantizeRes ∧
    (clearSequence s).isPlaying = s.isPlaying ∧
    (clearSequence s).isRecording = s.isRecording ∧
    (clearSequence s).isCountingIn = s.isCountingIn ∧
    (clearSequence s).currentStep = s.currentStep ∧
    (clearSequence s).nextNoteTime = s.nextNoteTime ∧
    (clearSequence s).loopStartTime = s.loopStartTime := by
  refine ⟨by simp [clearSequence, totalSteps_eq], fun i => ?_,
    rfl, rfl, rfl, rfl, rfl, rfl, rfl, rfl, rfl, rfl⟩
  rw [clearSequence, List.getD_eq_getElem?_getD]
  by_cases h : i < TOTAL_STEPS <;> simp [h]

/-- Claim C10: `setDrumBank` is total and wraps any integer argument (both
directions) into `[0, 4)`, so the `DRUM_BANKS[currentDrumBank]` lookup in
`playDrumSound` is always in bounds. -/
theorem setDrumBank_wraps_into_range (i : ℤ) (s : EngineState) :
    ((setDrumBank i s).currentDrumBank : ℤ) = i % 4 ∧
    (setDrumBank i s).currentDrumBank < DRUM_BANKS.length ∧
    (DRUM_BANKS[(setDrumBank i s).currentDrumBank]?).isSome = true := by
  have hlen : DRUM_BANKS.length = 4 := rfl
  have hmain : ((setDrumBank i s).currentDrumBank : ℤ) = i % 4 := by
    unfold setDrumBank jsRem
    rw [hlen]
    simp only
    split_ifs <;> omega
  refine ⟨hmain, ?_, ?_⟩
  · have : ((setDrumBank i s).currentDrumBank : ℤ) < 4 := by
      rw [hmain]; omega
    omega
  · have hlt : (setDrumBank i s).currentDrumBank < DRUM_BANKS.length := by
      have : ((setDrumBank i s).currentDrumBank : ℤ) < 4 := by
        rw [hmain]; omega
      omega
    simp [List.getElem?_eq_getElem hlt]

theorem getD_set_self (l : List (Option ℕ)) (i : ℕ) (v : Option ℕ)
    (h : i < l.length) : (l.set i v).getD i none = v := by
  rw [List.getD_eq_getElem?_getD, List.getElem?_set]
  simp [h]

theorem getD_set_ne (l : List (Option ℕ)) (i j : ℕ) (v : Option ℕ)
    (h : i ≠ j) : (l.set i v).getD j none = l.getD j none := by
  rw [List.getD_eq_getElem?_getD, List.getElem?_set, if_neg h,
    ← List.getD_eq_getElem?_getD]

theorem recordStep_lt (bpm : ℚ) (q : ℕ) (elapsed : ℚ) :
    recordStep bpm q elapsed < 128 := by
  simp only [recordStep, totalSteps_eq]
  split_ifs <;> omega

/-- Claim C4: quantized capture.  With a non-negative elapsed loop time,
`recordEvent` writes `sequence[step] = sliceId` (last write wins, all other
slots untouched) where `step = round(rawStep) mod 128` on the 1/32 grid and
`step = (round(rawStep/2)·2) mod 128` on the 1/16 grid, always in
`[0, 128)`; and for elapsed 1.05 s at 70 BPM both grids give step 10. -/
theorem recordEvent_quantized_capture (s : EngineState) (sliceId : ℕ)
    (hctx : s.audioCtxStarted = true)
    (hlen : s.sequence.length = 128)
    (hbpm : 0 < s.bpm)
    (hel : 0 ≤ s.audioTime - s.loopStartTime) :
    (s.quantizeRes = 32 →
      (recordStep s.bpm s.quantizeRes (s.audioTime - s.loopStartTime) : ℤ)
        = jsRound ((s.audioTime - s.loopStartTime) / (60 / s.bpm / 8)) % 128) ∧
    (s.quantizeRes = 16 →
      (recordStep s.bpm s.quantizeRes (s.audioTime - s.loopStartTime) : ℤ)
        = jsRound ((s.audioTime - s.loopStartTime) / (60 / s.bpm / 8) / 2) * 2 % 128) ∧
    recordStep s.bpm s.quantizeRes (s.audioTime - s.loopStartTime) < 128 ∧
    (recordEvent sliceId s).sequence.getD
        (recordStep s.bpm s.quantizeRes (s.audioTime - s.loopStartTime)) none
      = some sliceId ∧
    (∀ j, j ≠ recordStep s.bpm s.quantizeRes (s.audioTime - s.loopStartTime) →
      (recordEvent sliceId s).sequence.getD j none = s.sequence.getD j none) ∧
    recordStep 70 32 (21/20) = 10 ∧ recordStep 70 16 (21/20) = 10 := by
  have h8 : ((THIRTYSECONDS_PER_BEAT : ℕ) : ℚ) = 8 := by
    norm_num [THIRTYSECONDS_PER_BEAT]
  have ht32 : (0:ℚ) < 60 / s.bpm / 8 := by positivity
  have hraw : 0 ≤ (s.audioTime - s.loopStartTime) / (60 / s.bpm / 8) :=
    div_nonneg hel ht32.le
  have hfine : 0 ≤ jsRound ((s.audioTime - s.loopStartTime) / (60 / s.bpm / 8)) := by
    unfold jsRound
    exact Int.floor_nonneg.mpr (by linarith)
  have hcoarse : 0 ≤ jsRound ((s.audioTime - s.loopStartTime) / (60 / s.bpm / 8) / 2) := by
    unfold jsRound
    exact Int.floor_nonneg.mpr (by positivity)
  refine ⟨?_, ?_, recordStep_lt _ _ _, ?_, ?_, ?_, ?_⟩
  · intro hq
    simp only [recordStep, totalSteps_eq, hq, h8, jsRem]
    norm_num
    split_ifs <;> omega
  · intro hq
    simp only [recordStep, totalSteps_eq, hq, h8, jsRem]
    norm_num
    split_ifs <;> omega
  · unfold recordEvent
    rw [if_neg (by simp [hctx])]
    exact getD_set_self _ _ _ (by rw [hlen]; exact recordStep_lt _ _ _)
  · intro j hj
    unfold recordEvent
    rw [if_neg (by simp [hctx])]
    exact getD_set_ne _ _ _ _ (Ne.symm hj)
  · simp only [recordStep, totalSteps_eq, jsRound, jsRem, h8]
    norm_num
    rfl
  · simp only [recordStep, totalSteps_eq, jsRound, jsRem, h8]
    norm_num
    rfl

/-- Witness for C4 at a concrete state: 70 BPM, elapsed 1.05 s. -/
theorem recordEvent_quantized_capture_witness :
    let s : EngineState :=
      { initialState with audioCtxStarted := true, audioTime := 21/20 }
    (s.quantizeRes = 32 →
      (recordStep s.bpm s.quantizeRes (s.audioTime - s.loopStartTime) : ℤ)
        = jsRound ((s.audioTime - s.loopStartTime) / (60 / s.bpm / 8)) % 128) ∧
    (s.quantizeRes = 16 →
      (recordStep s.bpm s.quantizeRes (s.audioTime - s.loopStartTime) : ℤ)
        = jsRound ((s.audioTime - s.loopStartTime) / (60 / s.bpm / 8) / 2) * 2 % 128) ∧
    recordStep s.bpm s.quantizeRes (s.audioTime - s.loopStartTime) < 128 ∧
    (recordEvent 5 s).sequence.getD
        (recordStep s.bpm s.quantizeRes (s.audioTime - s.loopStartTime)) none
      = some 5 ∧
    (∀ j, j ≠ recordStep s.bpm s.quantizeRes (s.audioTime - s.loopStartTime) →
      (recordEvent 5 s).sequence.getD j none = s.sequence.getD j none) ∧
    recordStep 70 32 (21/20) = 10 ∧ recordStep 70 16 (21/20) = 10 :=
  recordEvent_quantized_capture _ 5 rfl
    (by simp [initialState, totalSteps_eq]) (by norm_num [initialState])
    (by norm_num [initialState])

theorem nextNote_spec (s : EngineState) :
    (nextNote s).bpm = s.bpm ∧
    (nextNote s).swingPercent = s.swingPercent ∧
    (nextNote s).sequence = s.sequence ∧
    (nextNote s).currentStep = (if 128 ≤ s.currentStep + 1 then 0 else s.currentStep + 1) ∧
    (nextNote s).nextNoteTime
      = s.nextNoteTime + stepInterval s.bpm s.swingPercent s.currentStep ∧
    (nextNote s).loopStartTime
      = (if 128 ≤ s.currentStep + 1 then
           s.nextNoteTime + stepInterval s.bpm s.swingPercent s.currentStep
         else s.loopStartTime) := by
  have hc8 : ((THIRTYSECONDS_PER_BEAT : ℕ) : ℚ) = 8 := by
    norm_num [THIRTYSECONDS_PER_BEAT]
  have hc4 : ((SIXTEENTHS_PER_BEAT : ℕ) : ℚ) = 4 := by
    norm_num [SIXTEENTHS_PER_BEAT]
  simp only [nextNote, stepInterval, totalSteps_eq, STEPS_PER_SIXTEENTH, hc8, hc4]
  split_ifs <;> simp_all

theorem stepInterval_accum (bpm swing : ℚ) (n : ℕ) :
    (n : ℚ) * (60 / bpm / 8) + swingOff bpm swing n + stepInterval bpm swing n
      = ((n : ℚ) + 1) * (60 / bpm / 8) + swingOff bpm swing (n + 1) := by
  rcases Nat.even_or_odd n with he | ho
  · have h2 : n % 2 = 0 := Nat.even_iff.mp he
    have hh : (n + 1) / 2 = n / 2 := by omega
    simp only [stepInterval, swingOff, h2, hh, if_pos rfl]
    split_ifs <;> ring
  · have h2 : n % 2 = 1 := Nat.odd_iff.mp ho
    have hh : (n + 1) / 2 = n / 2 + 1 := by omega
    by_cases hc : (n / 2) % 2 = 1
    · have hc2 : (n / 2 + 1) % 2 = 0 := by omega
      simp only [stepInterval, swingOff, h2, hh, hc, hc2]
      norm_num
      ring
    · have hc1 : (n / 2) % 2 = 0 := by omega
      have hc2 : (n / 2 + 1) % 2 = 1 := by omega
      simp only [stepInterval, swingOff, h2, hh, hc1, hc2]
      norm_num
      ring

theorem nextNote_iterate_closed (s0 : EngineState) (h0 : s0.currentStep = 0)
    (n : ℕ) (hn : n ≤ 128) :
    (nextNote^[n] s0).bpm = s0.bpm ∧
    (nextNote^[n] s0).swingPercent = s0.swingPercent ∧
    (nextNote^[n] s0).currentStep = (if n = 128 then 0 else n) ∧
    (nextNote^[n] s0).nextNoteTime
      = s0.nextNoteTime + n * (60 / s0.bpm / 8) + swingOff s0.bpm s0.swingPercent n ∧
    (nextNote^[n] s0).loopStartTime
      = (if n = 128 then s0.nextNoteTime + 16 * (60 / s0.bpm) else s0.loopStartTime) := by
  induction n with
  | zero =>
    simp [h0, swingOff]
  | succ n ih =>
    have hlt : n < 128 := by omega
    obtain ⟨hbpm, hsw, hstep, htime, hloop⟩ := ih (by omega)
    rw [Function.iterate_succ_apply']
    obtain ⟨hb2, hs2, _, hcs, hnt, hls⟩ := nextNote_spec (nextNote^[n] s0)
    have hstep' : (nextNote^[n] s0).currentStep = n := by
      rw [hstep, if_neg (by omega)]
    rw [hstep'] at hcs hnt hls
    rw [hbpm] at hb2
    rw [hsw] at hs2
    rw [hbpm, hsw] at hnt hls
    refine ⟨hb2, hs2, ?_, ?_, ?_⟩
    · rw [hcs]
      by_cases h128 : n + 1 = 128
      · rw [if_pos (by omega), if_pos h128]
      · rw [if_neg (by omega), if_neg h128]
    · rw [hnt, htime]
      have := stepInterval_accum s0.bpm s0.swingPercent n
      push_cast
      push_cast at this
      linarith
    · rw [hls]
      by_cases h128 : n + 1 = 128
      · rw [if_pos (by omega), if_pos h128, htime]
        have h127 : n = 127 := by omega
        subst h127
        have := stepInterval_accum s0.bpm s0.swingPercent 127
        have hoff : swingOff s0.bpm s0.swingPercent 128 = 0 := by
          norm_num [swingOff]
        rw [hoff] at this
        push_cast at this ⊢
        norm_num [swingOff] at this ⊢
        linarith
      · rw [if_neg (by omega), if_neg h128, hloop, if_neg (by omega)]

/-- Claim C2: swing never displaces the straight-16th grid.  From step 0,
at every even-indexed 16th-note boundary `j` the accumulated
`nextNoteTime` is the unswung position `loopStart + j·(60/bpm/4)`, and the
sum of all 128 step intervals of one loop pass is exactly
`(60/bpm)·16`, independent of the swing setting. -/
theorem swing_preserves_straight_grid (s0 : EngineState)
    (h0 : s0.currentStep = 0)
    (hpin : s0.nextNoteTime = s0.loopStartTime)
    (hsw : s0.swingPercent = 50 ∨ s0.swingPercent = 60 ∨ s0.swingPercent = 70) :
    (∀ j : ℕ, j ≤ 64 → j % 2 = 0 →
      (nextNote^[2 * j] s0).nextNoteTime
        = s0.loopStartTime + (j : ℚ) * (60 / s0.bpm / 4)) ∧
    (nextNote^[128] s0).nextNoteTime
      = s0.loopStartTime + (60 / s0.bpm) * 16 := by
  constructor
  · intro j hj hje
    obtain ⟨_, _, _, htime, _⟩ := nextNote_iterate_closed s0 h0 (2 * j) (by omega)
    rw [htime, hpin]
    have hoff : swingOff s0.bpm s0.swingPercent (2 * j) = 0 := by
      unfold swingOff
      have h2 : 2 * j / 2 = j := by omega
      rw [h2, if_neg (by omega)]
    rw [hoff]
    push_cast
    ring
  · obtain ⟨_, _, _, htime, _⟩ := nextNote_iterate_closed s0 h0 128 (by norm_num)
    rw [htime, hpin]
    have hoff : swingOff s0.bpm s0.swingPercent 128 = 0 := by
      norm_num [swingOff]
    rw [hoff]
    push_cast
    ring

/-- Witness for C2 at swing 60, boundary j = 4 and the full loop. -/
theorem swing_preserves_straight_grid_witness :
    let s0 : EngineState := { initialState with swingPercent := 60 }
    (nextNote^[2 * 4] s0).nextNoteTime
      = s0.loopStartTime + ((4 : ℕ) : ℚ) * (60 / s0.bpm / 4) ∧
    (nextNote^[128] s0).nextNoteTime = s0.loopStartTime + (60 / s0.bpm) * 16 :=
  ⟨(swing_preserves_straight_grid _ rfl rfl (Or.inr (Or.inl rfl))).1 4
      (by norm_num) (by norm_num),
   (swing_preserves_straight_grid _ rfl rfl (Or.inr (Or.inl rfl))).2⟩

theorem stepInterval_pos (bpm swing : ℚ) (step : ℕ)
    (hb1 : 60 ≤ bpm) (hb2 : bpm ≤ 90)
    (hsw : swing = 50 ∨ swing = 60 ∨ swing = 70) :
    0 < stepInterval bpm swing step := by
  have hbpos : 0 < bpm := by linarith
  have hB : 0 < 60 / bpm := div_pos (by norm_num) hbpos
  rcases hsw with h | h | h <;> subst h <;>
    simp only [stepInterval] <;> split_ifs <;> norm_num <;> linarith

/-- Claim C3: for BPM in the clamped range and swing in {50, 60, 70},
every `nextNote` call strictly increases `nextNoteTime`; the step index
stays in `[0, 128)`; wrapping past step 127 resets the index to 0 and
re-pins `loopStartTime` to `nextNoteTime`; `setSwingPosition` only ever
yields 50/60/70 and `setBpm` only ever yields a BPM in `[60, 90]`. -/
theorem nextNote_strictly_increasing_and_wraps (s : EngineState)
    (hb1 : 60 ≤ s.bpm) (hb2 : s.bpm ≤ 90)
    (hsw : s.swingPercent = 50 ∨ s.swingPercent = 60 ∨ s.swingPercent = 70) :
    s.nextNoteTime < (nextNote s).nextNoteTime ∧
    (nextNote s).currentStep < 128 ∧
    (s.currentStep = 127 →
      (nextNote s).currentStep = 0 ∧
      (nextNote s).loopStartTime = (nextNote s).nextNoteTime) ∧
    (∀ pos : ℤ, ∀ s2 : EngineState,
      (setSwingPosition pos s2).swingPercent = 50 ∨
      (setSwingPosition pos s2).swingPercent = 60 ∨
      (setSwingPosition pos s2).swingPercent = 70) ∧
    (∀ v : ℚ, ∀ s2 : EngineState,
      60 ≤ (setBpm v s2).bpm ∧ (setBpm v s2).bpm ≤ 90) := by
  obtain ⟨_, _, _, hcs, hnt, hls⟩ := nextNote_spec s
  refine ⟨?_, ?_, ?_, ?_, ?_⟩
  · rw [hnt]
    have := stepInterval_pos s.bpm s.swingPercent s.currentStep hb1 hb2 hsw
    linarith
  · rw [hcs]
    split_ifs <;> omega
  · intro h127
    rw [h127] at hcs hls
    norm_num at hcs hls
    exact ⟨hcs, by rw [hls, hnt, h127]⟩
  · intro pos s2
    have hk : (max 0 (min 2 pos)).toNat = 0 ∨ (max 0 (min 2 pos)).toNat = 1 ∨
        (max 0 (min 2 pos)).toNat = 2 := by omega
    unfold setSwingPosition SWING_VALUES
    rcases hk with hk | hk | hk <;> rw [hk] <;> simp
  · intro v s2
    unfold setBpm
    exact ⟨le_max_left _ _, max_le (by norm_num) (min_le_left _ _)⟩

/-- Witness for C3 at the wraparound step 127, swing 70, BPM 70. -/
theorem nextNote_strictly_increasing_and_wraps_witness :
    let s : EngineState := { initialState with currentStep := 127, swingPercent := 70 }
    s.nextNoteTime < (nextNote s).nextNoteTime ∧
    (nextNote s).currentStep < 128 ∧
    (s.currentStep = 127 →
      (nextNote s).currentStep = 0 ∧
      (nextNote s).loopStartTime = (nextNote s).nextNoteTime) ∧
    (∀ pos : ℤ, ∀ s2 : EngineState,
      (setSwingPosition pos s2).swingPercent = 50 ∨
      (setSwingPosition pos s2).swingPercent = 60 ∨
      (setSwingPosition pos s2).swingPercent = 70) ∧
    (∀ v : ℚ, ∀ s2 : EngineState,
      60 ≤ (setBpm v s2).bpm ∧ (setBpm v s2).bpm ≤ 90) :=
  nextNote_strictly_increasing_and_wraps _ (by norm_num [initialState])
    (by norm_num [initialState]) (Or.inr (Or.inr rfl))

/-- Counterexample to claim C5 as stated: after `stopPlayback` from a state
with Shift held and a mouse-held pad, the Note-Repeat held-state is NOT
cleared — `stopPlayback` never touches the held-pad sets or the shift flag
(only the window `blur` handler does). -/
theorem stopPlayback_held_state_counterexample :
    (stopPlayback { initialState with
      shiftHeld := true, mousePressedPads := [3] }).1.shiftHeld = true ∧
    (stopPlayback { initialState with
      shiftHeld := true, mousePressedPads := [3] }).1.mousePressedPads = [3] ∧
    ¬ ((stopPlayback { initialState with
          shiftHeld := true, mousePressedPads := [3] }).1.shiftHeld = false ∧
       (stopPlayback { initialState with
          shiftHeld := true, mousePressedPads := [3] }).1.mousePressedPads = []) := by
  refine ⟨rfl, rfl, fun h => ?_⟩
  have h1 := h.1
  rw [show (stopPlayback { initialState with
      shiftHeld := true, mousePressedPads := [3] }).1.shiftHeld = true from rfl] at h1
  exact absurd h1 (by simp)

/-- Claim C5 (amended): stopping transport cancels the pending scheduler
timer and any in-progress count-in timer, clears the transport flags and
count-in state, force-stops the active mute-group voice with the 5 ms fade
(source stopped at +6 ms), and resets the progress display and visual
loop; the Note-Repeat held-state is NOT touched by `stopPlayback` — it is
cleared by the window `blur` handler instead. -/
theorem stopPlayback_cancels_all (s : EngineState)
    (hsrc : s.currentSource = true) (hg : s.currentGain = true)
    (hctx : s.audioCtxStarted = true) :
    (stopPlayback s).1.isPlaying = false ∧
    (stopPlayback s).1.isRecording = false ∧
    (stopPlayback s).1.isCountingIn = false ∧
    (stopPlayback s).1.countInStep = 0 ∧
    (stopPlayback s).1.timerID = none ∧
    (stopPlayback s).1.countInTimerID = none ∧
    (stopPlayback s).1.currentSource = false ∧
    (stopPlayback s).1.currentGain = false ∧
    (stopPlayback s).1.activePadIndex = -1 ∧
    (stopPlayback s).1.animFrameID = none ∧
    (stopPlayback s).1.progressWidth = 0 ∧
    (stopPlayback s).2
      = [AudioAction.fadeStop s.audioTime (s.audioTime + 5/1000)
          (s.audioTime + 6/1000)] ∧
    (stopPlayback s).1.shiftHeld = s.shiftHeld ∧
    (stopPlayback s).1.mousePressedPads = s.mousePressedPads ∧
    (stopPlayback s).1.keyPressedPads = s.keyPressedPads ∧
    (blurHandler s).shiftHeld = false ∧
    (blurHandler s).mousePressedPads = [] ∧
    (blurHandler s).keyPressedPads = [] := by
  unfold stopPlayback stopCountIn stopCurrent blurHandler
  simp [hsrc, hg, hctx]

/-- Witness for C5 (amended) at a concrete state with an active voice. -/
theorem stopPlayback_cancels_all_witness :
    let s : EngineState := { initialState with
      currentSource := true, currentGain := true, audioCtxStarted := true,
      isPlaying := true, isRecording := true, shiftHeld := true }
    (stopPlayback s).1.isPlaying = false ∧
    (stopPlayback s).1.isRecording = false ∧
    (stopPlayback s).1.isCountingIn = false ∧
    (stopPlayback s).1.countInStep = 0 ∧
    (stopPlayback s).1.timerID = none ∧
    (stopPlayback s).1.countInTimerID = none ∧
    (stopPlayback s).1.currentSource = false ∧
    (stopPlayback s).1.currentGain = false ∧
    (stopPlayback s).1.activePadIndex = -1 ∧
    (stopPlayback s).1.animFrameID = none ∧
    (stopPlayback s).1.progressWidth = 0 ∧
    (stopPlayback s).2
      = [AudioAction.fadeStop s.audioTime (s.audioTime + 5/1000)
          (s.audioTime + 6/1000)] ∧
    (stopPlayback s).1.shiftHeld = s.shiftHeld ∧
    (stopPlayback s).1.mousePressedPads = s.mousePressedPads ∧
    (stopPlayback s).1.keyPressedPads = s.keyPressedPads ∧
    (blurHandler s).shiftHeld = false ∧
    (blurHandler s).mousePressedPads = [] ∧
    (blurHandler s).keyPressedPads = [] :=
  stopPlayback_cancels_all _ rfl rfl rfl

theorem obsEq_refl (s : EngineState) : ObsEq s s :=
  ⟨rfl, rfl, rfl, rfl, rfl, rfl⟩

theorem obsEq_trans {a b c : EngineState} (h1 : ObsEq a b) (h2 : ObsEq b c) :
    ObsEq a c := by
  obtain ⟨e1, e2, e3, e4, e5, e6⟩ := h1
  obtain ⟨f1, f2, f3, f4, f5, f6⟩ := h2
  exact ⟨f1.trans e1, f2.trans e2, f3.trans e3, f4.trans e4,
    f5.trans e5, f6.trans e6⟩

theorem ensureAudioContext_obs (s : EngineState) :
    ObsEq s (ensureAudioContext s) := by
  rw [ensureAudioContext_eq]
  exact ⟨rfl, rfl, rfl, rfl, rfl, rfl⟩

theorem playSlice_obs (i : ℤ) (t : Option ℚ) (s : EngineState) :
    ObsEq s (playSlice i t s).1 := by
  unfold playSlice
  split
  · exact obsEq_refl s
  · dsimp only
    split
    · exact ensureAudioContext_obs s
    · rw [ensureAudioContext_eq]
      exact ⟨rfl, rfl, rfl, rfl, rfl, rfl⟩

theorem playMetronomeTick_obs (t : ℚ) (d : Bool) (s : EngineState) :
    ObsEq s (playMetronomeTick t d s).1 :=
  ensureAudioContext_obs s

theorem playDrumSound_obs (tr : ℕ) (t : ℚ) (s : EngineState) :
    ObsEq s (playDrumSound tr t s).1 := by
  unfold playDrumSound
  split
  · exact ensureAudioContext_obs s
  · exact ensureAudioContext_obs s

theorem drumPatternHits_obs (pattern : List (List Bool)) (six : ℕ) (t : ℚ)
    (trs : List ℕ) (s : EngineState) :
    ObsEq s (drumPatternHits pattern six t trs s).1 := by
  induction trs generalizing s with
  | nil => exact obsEq_refl s
  | cons tr rest ih =>
    unfold drumPatternHits
    split
    · exact obsEq_trans (playDrumSound_obs tr t s) (ih _)
    · exact ih s

theorem metronomeStage_obs (step : ℕ) (t : ℚ) (s : EngineState) :
    ObsEq s (metronomeStage step t s).1 := by
  unfold metronomeStage
  split
  · exact playMetronomeTick_obs _ _ s
  · exact obsEq_refl s

theorem drumStage_obs (step : ℕ) (t : ℚ) (s : EngineState) :
    ObsEq s (drumStage step t s).1 := by
  unfold drumStage
  dsimp only
  split
  · exact drumPatternHits_obs _ _ _ _ s
  · exact obsEq_refl s

theorem seqPlayStage_obs (step : ℕ) (t : ℚ) (s : EngineState) :
    ObsEq s (seqPlayStage step t s).1 := by
  unfold seqPlayStage
  split
  · exact playSlice_obs _ _ s
  · exact obsEq_refl s

theorem scheduleNote_fst (step : ℕ) (time : ℚ) (s : EngineState) :
    (scheduleNote step time s).1 =
      (noteRepeatStage step time
        ((seqPlayStage step time
          ((drumStage step time ((metronomeStage step time s).1)).1)).1)).1 := rfl

theorem scheduleNote_preNR_obs (step : ℕ) (time : ℚ) (s : EngineState) :
    ObsEq s ((seqPlayStage step time
      ((drumStage step time ((metronomeStage step time s).1)).1)).1) :=
  obsEq_trans (metronomeStage_obs step time s)
    (obsEq_trans (drumStage_obs step time _) (seqPlayStage_obs step time _))

theorem SeqOK_replicate : SeqOK (List.replicate TOTAL_STEPS none) := by
  refine ⟨by simp, fun i v h => ?_⟩
  rw [List.getD_eq_getElem?_getD] at h
  by_cases hi : i < TOTAL_STEPS <;> simp [hi] at h

theorem noteRepeatHits_SeqOK (step : ℕ) (time : ℚ) (pressed : List ℕ) :
    ∀ s : EngineState, SeqOK s.sequence → (∀ p ∈ pressed, p < NUM_PADS) →
    SeqOK (noteRepeatHits step time pressed s).1.sequence := by
  induction pressed with
  | nil => intro s hseq _; exact hseq
  | cons p rest ih =>
    intro s hseq hp
    obtain ⟨hseqEq, _, _, _, _, _⟩ := playSlice_obs (p : ℤ) (some time) s
    unfold noteRepeatHits
    dsimp only
    apply ih
    · split_ifs with h1 h2
      · show SeqOK
          ((playSlice (p : ℤ) (some time) s).1.sequence.set
            (step % TOTAL_STEPS) (some p))
        rw [hseqEq]
        exact SeqOK_set _ _ _ hseq (hp p (by simp))
      · rw [hseqEq]; exact hseq
      · rw [hseqEq]; exact hseq
    · intro q hq
      exact hp q (by simp [hq])

theorem noteRepeatHits_writes (step : ℕ) (time : ℚ) (pressed : List ℕ) :
    ∀ s : EngineState, s.isRecording = true →
    s.sequence.length = TOTAL_STEPS → step < TOTAL_STEPS → pressed ≠ [] →
    (noteRepeatHits step time pressed s).1.sequence.getD step none
      = pressed.getLast? ∧
    (∀ j, j ≠ step →
      (noteRepeatHits step time pressed s).1.sequence.getD j none
        = s.sequence.getD j none) ∧
    (noteRepeatHits step time pressed s).1.sequence.length = TOTAL_STEPS := by
  induction pressed with
  | nil => intro s _ _ _ hne; exact absurd rfl hne
  | cons p rest ih =>
    intro s hrec hlen hstep _
    obtain ⟨hseqEq, hrecEq, _, _, _, _⟩ := playSlice_obs (p : ℤ) (some time) s
    have hmod : step % TOTAL_STEPS = step := Nat.mod_eq_of_lt hstep
    unfold noteRepeatHits
    dsimp only
    have hrecP : (playSlice (p : ℤ) (some time) s).1.isRecording = true := by
      rw [hrecEq]; exact hrec
    rw [if_pos hrecP, hmod, if_pos hstep]
    have hlen2 : ((playSlice (p : ℤ) (some time) s).1.sequence.set step
        (some p)).length = TOTAL_STEPS := by
      rw [List.length_set, hseqEq, hlen]
    cases rest with
    | nil =>
      unfold noteRepeatHits
      refine ⟨?_, fun j hj => ?_, ?_⟩
      · show ((playSlice (p : ℤ) (some time) s).1.sequence.set step
            (some p)).getD step none = some p
        exact getD_set_self _ _ _ (by rw [hseqEq, hlen]; exact hstep)
      · show ((playSlice (p : ℤ) (some time) s).1.sequence.set step
            (some p)).getD j none = s.sequence.getD j none
        rw [getD_set_ne _ _ _ _ (Ne.symm hj), hseqEq]
      · exact hlen2
    | cons q rest2 =>
      obtain ⟨w1, w2, w3⟩ := ih
        { (playSlice (p : ℤ) (some time) s).1 with
          sequence := (playSlice (p : ℤ) (some time) s).1.sequence.set step
            (some p) }
        (by show (playSlice (p : ℤ) (some time) s).1.isRecording = true
            rw [hrecEq, hrec])
        hlen2 hstep (by simp)
      refine ⟨?_, fun j hj => ?_, ?_⟩
      · rw [List.getLast?_cons_cons]
        exact w1
      · rw [w2 j hj]
        show ((playSlice (p : ℤ) (some time) s).1.sequence.set step
            (some p)).getD j none = s.sequence.getD j none
        rw [getD_set_ne _ _ _ _ (Ne.symm hj), hseqEq]
      · exact w3

/-- Claim C7: the sequence invariant (128 slots, each empty or a valid
slice index) is preserved by every operation that writes the sequence —
`triggerPad` (which validates the pad index before `recordEvent`), the
note-repeat recording write inside `scheduleNote` (whose held-pad sets
only contain indices 0..15), and `clearSequence` — while the other engine
operations leave the sequence unchanged. -/
theorem sequence_invariant_preserved (s : EngineState)
    (hseq : SeqOK s.sequence) :
    (∀ index : ℤ, SeqOK ((triggerPad index s).1).sequence) ∧
    (∀ step : ℕ, ∀ time : ℚ,
      (∀ p ∈ getPressedPads s, p < NUM_PADS) →
      SeqOK ((scheduleNote step time s).1).sequence) ∧
    SeqOK (clearSequence s).sequence ∧
    (nextNote s).sequence = s.sequence ∧
    ((stopPlayback s).1).sequence = s.sequence ∧
    (∀ i : ℤ, (setDrumBank i s).sequence = s.sequence) ∧
    (∀ idx : ℤ, ∀ t2 : Option ℚ,
      ((playSlice idx t2 s).1).sequence = s.sequence) := by
  refine ⟨?_, ?_, SeqOK_replicate, (nextNote_spec s).2.2.1, rfl,
    fun _ => rfl, fun idx t2 => (playSlice_obs idx t2 s).1⟩
  · intro index
    unfold triggerPad
    split
    · exact hseq
    · rename_i hguard
      push_neg at hguard
      obtain ⟨hload, hge, hlt⟩ := hguard
      dsimp only
      obtain ⟨hseqEq, _, _, _, _, _⟩ := playSlice_obs index none s
      split_ifs with hrp
      · unfold recordEvent
        split_ifs with hctx
        · dsimp only
          rw [hseqEq]
          refine SeqOK_set _ _ _ hseq ?_
          have hN : (NUM_PADS : ℤ) = 16 := rfl
          have hN2 : NUM_PADS = 16 := rfl
          omega
        · rw [hseqEq]; exact hseq
      · rw [hseqEq]; exact hseq
  · intro step time hp
    rw [scheduleNote_fst]
    obtain ⟨hseqEq, hrecEq, hmodeEq, hshiftEq, hmouseEq, hkeyEq⟩ :=
      scheduleNote_preNR_obs step time s
    have hpress : getPressedPads ((seqPlayStage step time
        ((drumStage step time ((metronomeStage step time s).1)).1)).1)
        = getPressedPads s := by
      unfold getPressedPads
      rw [hmouseEq, hkeyEq]
    unfold noteRepeatStage
    split_ifs with h1
    · dsimp only
      rw [hpress]
      split_ifs with h2
      · exact noteRepeatHits_SeqOK step time (getPressedPads s) _
          (by rw [hseqEq]; exact hseq) hp
      · rw [hseqEq]; exact hseq
    · rw [hseqEq]; exact hseq

/-- Witness for C7 at the initial state. -/
theorem sequence_invariant_preserved_witness :
    (∀ index : ℤ, SeqOK ((triggerPad index initialState).1).sequence) ∧
    (∀ step : ℕ, ∀ time : ℚ,
      (∀ p ∈ getPressedPads initialState, p < NUM_PADS) →
      SeqOK ((scheduleNote step time initialState).1).sequence) ∧
    SeqOK (clearSequence initialState).sequence ∧
    (nextNote initialState).sequence = initialState.sequence ∧
    ((stopPlayback initialState).1).sequence = initialState.sequence ∧
    (∀ i : ℤ, (setDrumBank i initialState).sequence = initialState.sequence) ∧
    (∀ idx : ℤ, ∀ t2 : Option ℚ,
      ((playSlice idx t2 initialState).1).sequence
        = initialState.sequence) :=
  sequence_invariant_preserved initialState SeqOK_replicate

/-- Claim C9: note-repeat recording bypasses quantization.  While note
repeat and recording are active, the dispatched step writes the held pad
at the raw 1/32 step index — for every `quantizeRes` setting, including
16 — whereas the `recordEvent` path with `quantizeRes = 16` only ever
writes even (16th-aligned) steps; with several held pads all write the
same slot, so the last pad in set-iteration order wins. -/
theorem noteRepeat_bypasses_quantize (s : EngineState) (step : ℕ) (time : ℚ)
    (hmode : s.seqMode = false) (hshift : s.shiftHeld = true)
    (hrec : s.isRecording = true) (hlen : s.sequence.length = TOTAL_STEPS)
    (hstep : step < TOTAL_STEPS) (hne : getPressedPads s ≠ []) :
    (scheduleNote step time s).1.sequence.getD step none
      = (getPressedPads s).getLast? ∧
    (∀ j, j ≠ step →
      (scheduleNote step time s).1.sequence.getD j none
        = s.sequence.getD j none) ∧
    (∀ bpm elapsed : ℚ, recordStep bpm 16 elapsed % 2 = 0) := by
  rw [scheduleNote_fst]
  obtain ⟨hseqEq, hrecEq, hmodeEq, hshiftEq, hmouseEq, hkeyEq⟩ :=
    scheduleNote_preNR_obs step time s
  have hpress : getPressedPads ((seqPlayStage step time
      ((drumStage step time ((metronomeStage step time s).1)).1)).1)
      = getPressedPads s := by
    unfold getPressedPads
    rw [hmouseEq, hkeyEq]
  have hnr : isNoteRepeatActive ((seqPlayStage step time
      ((drumStage step time ((metronomeStage step time s).1)).1)).1) = true := by
    unfold isNoteRepeatActive
    rw [hmodeEq, hmode, hshiftEq, hshift]
    rfl
  unfold noteRepeatStage
  rw [if_pos hnr]
  dsimp only
  rw [hpress, if_pos (List.length_pos.mpr hne)]
  obtain ⟨w1, w2, w3⟩ := noteRepeatHits_writes step time (getPressedPads s) _
    (by rw [hrecEq]; exact hrec) (by rw [hseqEq]; exact hlen) hstep hne
  refine ⟨w1, fun j hj => ?_, fun bpm elapsed => ?_⟩
  · rw [w2 j hj, hseqEq]
  · have key : ∀ a : ℤ,
        (if jsRem (a * 2) 128 < 0 then 0
         else if (128:ℤ) ≤ jsRem (a * 2) 128 then 127
         else jsRem (a * 2) 128).toNat % 2 = 0 := by
      intro a
      unfold jsRem
      split_ifs <;> omega
    simp only [recordStep, totalSteps_eq]
    norm_num
    exact key _

/-- Witness for C9: Shift held with pads 2 and 5 mouse-held, recording,
quantize 1/16, dispatched at the odd raw step 7. -/
theorem noteRepeat_bypasses_quantize_witness :
    let s : EngineState := { initialState with
      shiftHeld := true, isRecording := true, quantizeRes := 16,
      mousePressedPads := [2, 5] }
    (scheduleNote 7 0 s).1.sequence.getD 7 none
      = (getPressedPads s).getLast? ∧
    (∀ j, j ≠ 7 →
      (scheduleNote 7 0 s).1.sequence.getD j none
        = s.sequence.getD j none) ∧
    (∀ bpm elapsed : ℚ, recordStep bpm 16 elapsed % 2 = 0) :=
  noteRepeat_bypasses_quantize _ 7 0 rfl rfl rfl
    (by simp [initialState, totalSteps_eq])
    (by norm_num [totalSteps_eq])
    (by simp [getPressedPads, initialState])

theorem countInTickActs_succ (t0 spb : ℚ) (k : ℕ) :
    countInTickActs t0 spb (k + 1)
      = countInTickActs t0 spb k ++
        [AudioAction.metronomeTick (t0 + k * spb)
          (if k = 0 then 2400 else 1800)] := by
  simp [countInTickActs, List.range_succ]

theorem countIn_tick_advance_inv (t0 bpm0 : ℚ) (k : ℕ) (s : EngineState)
    (hci : s.isCountingIn = true) (hstep : s.countInStep = k)
    (hk1 : k + 1 ≤ 4)
    (htime : s.countInNextTime = t0 + k * (60 / bpm0)) (hbpm : s.bpm = bpm0) :
    CIInv t0 (60 / bpm0) bpm0 (k + 1)
      { (playMetronomeTick s.countInNextTime (s.countInStep == 0) s).1 with
        countInNextTime :=
          (playMetronomeTick s.countInNextTime (s.countInStep == 0) s).1.countInNextTime
            + 60 / (playMetronomeTick s.countInNextTime (s.countInStep == 0) s).1.bpm,
        countInStep :=
          (playMetronomeTick s.countInNextTime (s.countInStep == 0) s).1.countInStep
            + 1 } := by
  have he : (playMetronomeTick s.countInNextTime (s.countInStep == 0) s).1
      = ensureAudioContext s := rfl
  rw [he, ensureAudioContext_eq]
  refine ⟨hci, by dsimp only; rw [hstep], hk1, ?_, hbpm⟩
  dsimp only
  rw [htime, hbpm]
  push_cast
  ring

theorem countInSchedulerGo_inv (t0 bpm0 : ℚ) :
    ∀ fuel k (s : EngineState), CIInv t0 (60 / bpm0) bpm0 k s →
    (∃ kk, CIInv t0 (60 / bpm0) bpm0 kk (countInSchedulerGo fuel s).1 ∧
        countInTickActs t0 (60 / bpm0) k ++ (countInSchedulerGo fuel s).2
          = countInTickActs t0 (60 / bpm0) kk) ∨
    (CIFinal t0 (60 / bpm0) (countInSchedulerGo fuel s).1 ∧
        countInTickActs t0 (60 / bpm0) k ++ (countInSchedulerGo fuel s).2
          = countInTickActs t0 (60 / bpm0) 4) := by
  intro fuel
  induction fuel with
  | zero =>
    intro k s hinv
    exact Or.inl ⟨k, hinv, by simp [countInSchedulerGo]⟩
  | succ fuel ih =>
    intro k s hinv
    obtain ⟨hci, hstep, hk4, htime, hbpm⟩ := hinv
    unfold countInSchedulerGo
    dsimp only
    by_cases hcond : s.countInNextTime < s.audioTime + scheduleAheadTime
    · rw [if_pos hcond]
      by_cases h4 : 4 ≤ s.countInStep
      · rw [if_pos h4]
        have hk : k = 4 := by omega
        right
        constructor
        · refine ⟨rfl, rfl, rfl, rfl, ?_, ?_, rfl⟩
          · show s.countInNextTime = t0 + 4 * (60 / bpm0)
            rw [htime, hk]; norm_num
          · show s.countInNextTime = t0 + 4 * (60 / bpm0)
            rw [htime, hk]; norm_num
        · rw [hk]; simp
      · rw [if_neg h4]
        have hinv2 := countIn_tick_advance_inv t0 bpm0 k s hci hstep
          (by omega) htime hbpm
        have htickact :
            (playMetronomeTick s.countInNextTime (s.countInStep == 0) s).2
              = [AudioAction.metronomeTick (t0 + k * (60 / bpm0))
                  (if k = 0 then 2400 else 1800)] := by
          show [AudioAction.metronomeTick s.countInNextTime
            (if (s.countInStep == 0) then 2400 else 1800)] = _
          rw [htime, hstep]
          by_cases hk0 : k = 0 <;> simp [hk0]
        rcases ih (k + 1) _ hinv2 with ⟨kk, hi2, hacts2⟩ | ⟨hf2, hacts2⟩
        · left
          refine ⟨kk, hi2, ?_⟩
          dsimp only
          rw [← List.append_assoc, htickact, ← countInTickActs_succ]
          exact hacts2
        · right
          refine ⟨hf2, ?_⟩
          dsimp only
          rw [← List.append_assoc, htickact, ← countInTickActs_succ]
          exact hacts2
    · rw [if_neg hcond]
      exact Or.inl ⟨k, ⟨hci, hstep, hk4, htime, hbpm⟩, by simp⟩

theorem countInRun_inv (t0 bpm0 : ℚ) (ws : List ℚ) :
    ∀ r : EngineState × List AudioAction,
    ((∃ k, CIInv t0 (60 / bpm0) bpm0 k r.1 ∧
        r.2 = countInTickActs t0 (60 / bpm0) k) ∨
     (CIFinal t0 (60 / bpm0) r.1 ∧
        r.2 = countInTickActs t0 (60 / bpm0) 4)) →
    ((∃ k, CIInv t0 (60 / bpm0) bpm0 k (countInRun ws r).1 ∧
        (countInRun ws r).2 = countInTickActs t0 (60 / bpm0) k) ∨
     (CIFinal t0 (60 / bpm0) (countInRun ws r).1 ∧
        (countInRun ws r).2 = countInTickActs t0 (60 / bpm0) 4)) := by
  induction ws with
  | nil =>
    intro r h
    obtain ⟨s, acts⟩ := r
    exact h
  | cons now rest ih =>
    intro r h
    obtain ⟨s, acts⟩ := r
    rcases h with ⟨k, hinv, hacts⟩ | ⟨hfin, hacts⟩
    · unfold countInRun
      rw [if_pos hinv.1]
      dsimp only
      apply ih
      have hinv' : CIInv t0 (60 / bpm0) bpm0 k { s with audioTime := now } :=
        ⟨hinv.1, hinv.2.1, hinv.2.2.1, hinv.2.2.2.1, hinv.2.2.2.2⟩
      rcases countInSchedulerGo_inv t0 bpm0 5 k _ hinv' with
        ⟨kk, hi2, he⟩ | ⟨hf2, he⟩
      · left
        refine ⟨kk, hi2, ?_⟩
        dsimp only at hacts ⊢
        rw [hacts]
        exact he
      · right
        refine ⟨hf2, ?_⟩
        dsimp only at hacts ⊢
        rw [hacts]
        exact he
    · unfold countInRun
      rw [if_neg (by simp only [Bool.not_eq_true]; exact hfin.1)]
      exact Or.inr ⟨hfin, hacts⟩

theorem countInTickActs_four (t0 spb : ℚ) :
    countInTickActs t0 spb 4
      = [AudioAction.metronomeTick t0 2400,
         AudioAction.metronomeTick (t0 + spb) 1800,
         AudioAction.metronomeTick (t0 + 2 * spb) 1800,
         AudioAction.metronomeTick (t0 + 3 * spb) 1800] := by
  unfold countInTickActs
  rw [show List.range 4 = [0, 1, 2, 3] from rfl]
  norm_num

theorem startCountIn_inv (s0 : EngineState) :
    (∃ k, CIInv s0.audioTime (60 / s0.bpm) s0.bpm k (startCountIn s0).1 ∧
        (startCountIn s0).2 = countInTickActs s0.audioTime (60 / s0.bpm) k) ∨
    (CIFinal s0.audioTime (60 / s0.bpm) (startCountIn s0).1 ∧
        (startCountIn s0).2 = countInTickActs s0.audioTime (60 / s0.bpm) 4) := by
  have hinv0 : CIInv s0.audioTime (60 / s0.bpm) s0.bpm 0
      { ensureAudioContext s0 with
        isCountingIn := true, countInStep := 0,
        countInNextTime := (ensureAudioContext s0).audioTime,
        progressWidth := 0 } :=
    ⟨rfl, rfl, by norm_num, by simp [ensureAudioContext_eq],
      by simp [ensureAudioContext_eq]⟩
  have hgo := countInSchedulerGo_inv s0.audioTime s0.bpm 5 0 _ hinv0
  have heq : startCountIn s0 = countInSchedulerGo 5
      { ensureAudioContext s0 with
        isCountingIn := true, countInStep := 0,
        countInNextTime := (ensureAudioContext s0).audioTime,
        progressWidth := 0 } := rfl
  rw [heq]
  rcases hgo with ⟨kk, hi2, he⟩ | ⟨hf2, he⟩
  · left
    refine ⟨kk, hi2, ?_⟩
    simpa [countInTickActs] using he
  · right
    refine ⟨hf2, ?_⟩
    simpa [countInTickActs] using he

theorem countInSchedulerGo_completes (t0 bpm0 : ℚ) (hspb : 0 < 60 / bpm0) :
    ∀ fuel k (s : EngineState), CIInv t0 (60 / bpm0) bpm0 k s →
    4 - k < fuel →
    t0 + 4 * (60 / bpm0) < s.audioTime + scheduleAheadTime →
    (countInSchedulerGo fuel s).1.isCountingIn = false := by
  intro fuel
  induction fuel with
  | zero =>
    intro k s _ hf _
    omega
  | succ fuel ih =>
    intro k s hinv hf hlate
    obtain ⟨hci, hstep, hk4, htime, hbpm⟩ := hinv
    unfold countInSchedulerGo
    dsimp only
    have hcond : s.countInNextTime < s.audioTime + scheduleAheadTime := by
      rw [htime]
      have hmono : (k : ℚ) * (60 / bpm0) ≤ 4 * (60 / bpm0) := by
        apply mul_le_mul_of_nonneg_right _ hspb.le
        exact_mod_cast hk4
      linarith
    rw [if_pos hcond]
    by_cases h4 : 4 ≤ s.countInStep
    · rw [if_pos h4]
      rfl
    · rw [if_neg h4]
      dsimp only
      apply ih (k + 1)
      · exact countIn_tick_advance_inv t0 bpm0 k s hci hstep (by omega)
          htime hbpm
      · omega
      · have he : (playMetronomeTick s.countInNextTime (s.countInStep == 0) s).1
            = ensureAudioContext s := rfl
        show t0 + 4 * (60 / bpm0)
          < (playMetronomeTick s.countInNextTime (s.countInStep == 0) s).1.audioTime
            + scheduleAheadTime
        rw [he, ensureAudioContext_eq]
        exact hlate

theorem countIn_completes (s0 : EngineState) (hbpm : 0 < s0.bpm) :
    (countInRun [s0.audioTime + 4 * (60 / s0.bpm)]
      (startCountIn s0)).1.isCountingIn = false := by
  have hspb : 0 < 60 / s0.bpm := by positivity
  rcases hr : startCountIn s0 with ⟨s, acts⟩
  have hstart := startCountIn_inv s0
  rw [hr] at hstart
  rcases hstart with ⟨k, hinv, _⟩ | ⟨hfin, _⟩
  · unfold countInRun
    rw [if_pos hinv.1]
    dsimp only
    have hinv' : CIInv s0.audioTime (60 / s0.bpm) s0.bpm k
        { s with audioTime := s0.audioTime + 4 * (60 / s0.bpm) } :=
      ⟨hinv.1, hinv.2.1, hinv.2.2.1, hinv.2.2.2.1, hinv.2.2.2.2⟩
    have hdone := countInSchedulerGo_completes s0.audioTime s0.bpm hspb 5 k _
      hinv' (by have := hinv.2.2.1; omega)
      (by dsimp only
          have hsat : (0:ℚ) < scheduleAheadTime := by norm_num [scheduleAheadTime]
          linarith)
    unfold countInRun
    exact hdone
  · unfold countInRun
    rw [if_neg (by simp only [Bool.not_eq_true]; exact hfin.1)]
    exact hfin.1

/-- Counterexample to claim C1 as stated: running the count-in from the
initial state (70 BPM, audio time 0) to completion, the four ticks fall at
0, 6/7, 12/7 and 18/7 s — so the 4th tick sounds at 18/7 s — but the
handoff sets `loopStartTime` (and `nextNoteTime`) to 24/7 s, one full beat
(6/7 s) after the 4th tick, not at the time of the 4th tick. -/
theorem countIn_handoff_counterexample :
    (countInRun [24/7] (startCountIn initialState)).2
      = [AudioAction.metronomeTick 0 2400,
         AudioAction.metronomeTick (6/7) 1800,
         AudioAction.metronomeTick (12/7) 1800,
         AudioAction.metronomeTick (18/7) 1800] ∧
    (countInRun [24/7] (startCountIn initialState)).1.loopStartTime = 24/7 ∧
    (24/7 : ℚ) ≠ 18/7 := by
  have hbpm : (0:ℚ) < initialState.bpm := by norm_num [initialState]
  have hdone := countIn_completes initialState hbpm
  have hws : initialState.audioTime + 4 * (60 / initialState.bpm) = 24/7 := by
    norm_num [initialState]
  rw [hws] at hdone
  rcases countInRun_inv initialState.audioTime initialState.bpm [24/7]
      (startCountIn initialState) (startCountIn_inv initialState) with
    ⟨k, hinv, hacts⟩ | ⟨hfin, hacts⟩
  · rw [hinv.1] at hdone
    exact absurd hdone (by simp)
  · obtain ⟨hci, hp, hrr, hcs, hnt, hls, hct⟩ := hfin
    refine ⟨?_, ?_, by norm_num⟩
    · rw [hacts, countInTickActs_four]
      norm_num [initialState]
    · rw [hls]
      norm_num [initialState]

/-- Claim C1 (amended): when recording is requested while not playing,
exactly 4 metronome ticks are scheduled one beat (60/bpm s) apart, only
the first (beat 0) accented at 2400 Hz (1800 Hz otherwise); the handoff
then begins recording one beat AFTER the 4th tick, at `t0 + 4·(60/bpm)`
(the next beat boundary, continuing the count-in grid with no gap): it
sets `playing = true`, `recording = true`, `currentStep = 0`, and
`loopStartTime = nextNoteTime` = that handoff time, cancelling the
count-in timer and starting the main scheduler from that exact state. -/
theorem countIn_four_ticks_then_handoff (s0 : EngineState) (ws : List ℚ)
    (hdone : (countInRun ws (startCountIn s0)).1.isCountingIn = false) :
    (countInRun ws (startCountIn s0)).2
      = [AudioAction.metronomeTick s0.audioTime 2400,
         AudioAction.metronomeTick (s0.audioTime + 60 / s0.bpm) 1800,
         AudioAction.metronomeTick (s0.audioTime + 2 * (60 / s0.bpm)) 1800,
         AudioAction.metronomeTick (s0.audioTime + 3 * (60 / s0.bpm)) 1800] ∧
    (countInRun ws (startCountIn s0)).1.isPlaying = true ∧
    (countInRun ws (startCountIn s0)).1.isRecording = true ∧
    (countInRun ws (startCountIn s0)).1.currentStep = 0 ∧
    (countInRun ws (startCountIn s0)).1.loopStartTime
      = s0.audioTime + 4 * (60 / s0.bpm) ∧
    (countInRun ws (startCountIn s0)).1.nextNoteTime
      = (countInRun ws (startCountIn s0)).1.loopStartTime ∧
    (countInRun ws (startCountIn s0)).1.countInTimerID = none := by
  have hrun := countInRun_inv s0.audioTime s0.bpm ws (startCountIn s0)
    (startCountIn_inv s0)
  rcases hrun with ⟨k, hinv, hacts⟩ | ⟨hfin, hacts⟩
  · rw [hinv.1] at hdone
    exact absurd hdone (by simp)
  · obtain ⟨hci, hp, hr, hcs, hnt, hls, hct⟩ := hfin
    exact ⟨by rw [hacts, countInTickActs_four], hp, hr, hcs, hls,
      by rw [hnt, hls], hct⟩

/-- Witness for C1 (amended): the concrete run from the initial state with
a single late wake at 24/7 s completes the count-in. -/
theorem countIn_four_ticks_then_handoff_witness :
    (countInRun [24/7] (startCountIn initialState)).2
      = [AudioAction.metronomeTick initialState.audioTime 2400,
         AudioAction.metronomeTick
           (initialState.audioTime + 60 / initialState.bpm) 1800,
         AudioAction.metronomeTick
           (initialState.audioTime + 2 * (60 / initialState.bpm)) 1800,
         AudioAction.metronomeTick
           (initialState.audioTime + 3 * (60 / initialState.bpm)) 1800] ∧
    (countInRun [24/7] (startCountIn initialState)).1.isPlaying = true ∧
    (countInRun [24/7] (startCountIn initialState)).1.isRecording = true ∧
    (countInRun [24/7] (startCountIn initialState)).1.currentStep = 0 ∧
    (countInRun [24/7] (startCountIn initialState)).1.loopStartTime
      = initialState.audioTime + 4 * (60 / initialState.bpm) ∧
    (countInRun [24/7] (startCountIn initialState)).1.nextNoteTime
      = (countInRun [24/7] (startCountIn initialState)).1.loopStartTime ∧
    (countInRun [24/7] (startCountIn initialState)).1.countInTimerID
      = none :=
  countIn_four_ticks_then_handoff initialState [24/7]
    (by have h := countIn_completes initialState (by norm_num [initialState])
        rwa [show initialState.audioTime + 4 * (60 / initialState.bpm)
          = 24/7 by norm_num [initialState]] at h)

end HAL60
